import Mathlib

/-!
Shallow embedding of src/global_functions.py: the functions filter_cols,
format_number and descriptive_analysis, over an explicit model of pandas
DataFrames. Python floats are idealized as rationals; the missing marker
(NaN or None, i.e. anything pd.isnull accepts) is an explicit constructor.
Fallible code is modelled with Except: a Python exception becomes an error
value carrying the exception kind.
-/

namespace GF

/-- Cell value of a dataset: the missing marker, a Python float, a Python
int, or a string. -/
inductive Val where
  | missing : Val
  | flt : ℚ → Val
  | intV : ℤ → Val
  | strV : String → Val
deriving DecidableEq

/-- Column label. pandas labels are arbitrary hashables; the source code
calls .lower() on them, which succeeds on strings and raises AttributeError
on integers, so the model carries both shapes. -/
inductive Label where
  | str : String → Label
  | int : ℤ → Label
deriving DecidableEq

/-- Python truthiness of a label, as used elementwise by pandas Index.any:
the empty string and the integer zero are falsy. -/
def Label.truthy : Label → Bool
  | .str s => s != ""
  | .int n => n != 0

/-- A dataset column: its pandas dtype classification (numeric means the
dtype is included in np.number) together with the cell values, one per
row. -/
structure Col where
  numeric : Bool
  values : List Val
deriving DecidableEq

/-- A tabular dataset: a fixed row count and ordered labeled columns.
len(df) is nrows and df.columns is cols.map Prod.fst. -/
structure Dataset where
  nrows : ℕ
  cols : List (Label × Col)
deriving DecidableEq

/-- Well-formed dataset: column labels are pairwise distinct and every
column holds exactly nrows values. -/
def Dataset.WF (d : Dataset) : Prop :=
  (d.cols.map Prod.fst).Nodup ∧ ∀ p ∈ d.cols, (Prod.snd p).values.length = d.nrows

instance (d : Dataset) : Decidable d.WF := by
  unfold Dataset.WF; infer_instance

/-- Count of missing cells of one column: df[col].isnull().sum(). -/
def missingCount (c : Col) : ℕ := c.values.count Val.missing

/-- Naming heuristic on a string label: col.lower().startswith of the
literal prefix unnamed, expressed on the character list (lowering a
string maps Char.toLower over its characters, and startswith is the
prefix test on those lists). -/
def isUnnamed (s : String) : Bool := "unnamed".data.isPrefixOf (s.data.map Char.toLower)

/-- Reason list built by the loop body of filter_cols for one column. The
missingness test runs first and never fails; the .lower() call then raises
AttributeError when the label is not a string. -/
def colReasons (t : ℚ) (n : ℕ) (lab : Label) (c : Col) : Except String (List String) :=
  let base := if (missingCount c : ℚ) > t * n then ["Excessive Missing Values"] else []
  match lab with
  | .str s => .ok (base ++ if isUnnamed s then ["Unnamed Column"] else [])
  | .int _ => .error "AttributeError: int object has no attribute lower"

/-- The column loop of filter_cols: cols_to_filter as an ordered list of
flagged labels with their joined reason strings. Iteration is left to
right and the first raised exception aborts the call. -/
def collectFlagged (t : ℚ) (n : ℕ) : List (Label × Col) → Except String (List (Label × String))
  | [] => .ok []
  | p :: rest =>
    match colReasons t n p.1 p.2 with
    | .error e => .error e
    | .ok rs =>
      match collectFlagged t n rest with
      | .error e => .error e
      | .ok tail =>
        .ok (if rs.isEmpty then tail else (p.1, String.intercalate ", " rs) :: tail)

/-- Report DataFrame: pd.DataFrame over the keys Column and Reason; the two
headers exist even when there are no rows. -/
structure Report where
  columnHeader : String
  reasonHeader : String
  rows : List (Label × String)
deriving DecidableEq

/-- filter_cols from the source: collect the flagged columns, drop them
from the dataset (keeping column order and values), and return the report.
The report_with_title value built near the end of the source function is
discarded there (the function returns report_df), so it has no effect on
the returned pair and is not modelled. -/
def filter_cols (d : Dataset) (t : ℚ) : Except String (Dataset × Report) :=
  match collectFlagged t d.nrows d.cols with
  | .error e => .error e
  | .ok flagged =>
    .ok (⟨d.nrows, d.cols.filter fun p => decide (p.1 ∉ flagged.map Prod.fst)⟩,
         ⟨"Column", "Reason", flagged⟩)

/-- Rounding of a float to two decimal places, round(x, 2). Python rounds
on the binary float representation with banker rounding at exact ties;
rationals idealize floats here and ties follow the library round. -/
def round2 (q : ℚ) : ℚ := ((round (q * 100) : ℤ) : ℚ) / 100

/-- format_number from the source: a missing value (pd.isnull) is returned
unchanged, a float is rounded to two decimals and stays a float, and any
other value is returned unchanged. -/
def format_number : Val → Val
  | .missing => .missing
  | .flt q => .flt (round2 q)
  | v => v

/-- Numeric cell extraction inside a numeric-dtype column. -/
def numVal : Val → Option ℚ
  | .flt q => some q
  | .intV n => some (n : ℚ)
  | _ => none

/-- Non-missing numeric values of a column in row order: x.dropna(). -/
def numData (c : Col) : List ℚ := c.values.filterMap numVal

/-- Sum of a list of rationals. -/
def qsum (l : List ℚ) : ℚ := l.foldr (· + ·) 0

/-- Floor of the square root of a nonnegative rational q = a / b, via the
identities sqrt (a / b) = sqrt (a * b) / b and the floor of a real divided
by a natural. -/
def ratSqrtFloor (q : ℚ) : ℕ := Nat.sqrt (q.num.toNat * q.den) / q.den

/-- The std statistic as displayed after applymap format_number: round2 of
the square root of the sample variance, computed directly on rationals
through the floor of a scaled integer square root. -/
def stdRounded (v : ℚ) : ℚ := (((ratSqrtFloor (40000 * v) + 1) / 2 : ℕ) : ℚ) / 100

/-- Sample variance with the pandas default ddof of one; meaningful only
for at least two data points, matching its use below. -/
def sampleVar (l : List ℚ) : ℚ :=
  let m := qsum l / (l.length : ℚ)
  qsum (l.map fun x => (x - m) ^ 2) / ((l.length : ℚ) - 1)

/-- Quantile with the pandas linear interpolation over the sorted
non-missing values; the list is assumed nonempty at every call site. -/
def quantileQ (p : ℚ) (l : List ℚ) : ℚ :=
  let s := l.insertionSort (· ≤ ·)
  let n := s.length
  let h := p * ((n : ℚ) - 1)
  let i := h.floor.toNat
  let lo := s.getD i 0
  let hi := s.getD (min (i + 1) (n - 1)) 0
  lo + (h - (i : ℚ)) * (hi - lo)

/-- Highest single-value occurrence count of a list, the count read off by
value_counts().iloc[0] when the list is nonempty. -/
def maxMult {α : Type} [DecidableEq α] (l : List α) : ℕ :=
  (l.map fun v => l.count v).foldr max 0

/-- Most frequent value, the describe top statistic. At ties the pandas
order is hash dependent; the model takes the first value in row order that
attains the maximal count. -/
def modeVal (l : List Val) : Option Val :=
  l.find? fun v => l.count v == maxMult l

/-- Statistic rows of df[numeric_cols].describe() for one column after
applymap format_number, followed by the appended missing and freq rows.
describe yields the count as a float and missing statistics when there are
no non-missing values, and a missing std when there are fewer than two;
the appended rows keep integer kind, so format_number leaves them as is,
and the freq row is missing for a column with no non-missing values. -/
def numericStats (c : Col) : List (String × Val) :=
  let xs := numData c
  let n := xs.length
  let meanv : Val := if n = 0 then .missing else .flt (round2 (qsum xs / (n : ℚ)))
  let stdv : Val := if n < 2 then .missing else .flt (stdRounded (sampleVar xs))
  let qv : ℚ → Val := fun p => if n = 0 then .missing else .flt (round2 (quantileQ p xs))
  [("count", .flt (n : ℚ)),
   ("mean", meanv),
   ("std", stdv),
   ("min", qv 0),
   ("25%", qv (1/4)),
   ("50%", qv (1/2)),
   ("75%", qv (3/4)),
   ("max", qv 1),
   ("missing", .intV (missingCount c)),
   ("freq", if xs.isEmpty then .missing else .intV (maxMult xs))]

/-- Statistic rows of the non-numeric block for one column. The describe
call with include all yields count, unique, top and freq over the
non-missing values; the missing row is appended; the freq row is then
overwritten by a lambda guarded only by x.empty, so a column that has rows
but only missing values reaches iloc[0] of an empty value_counts (which
drops missing values) and raises IndexError. -/
def nonNumericStats (c : Col) : Except String (List (String × Val)) :=
  let nn := c.values.filter fun v => decide (v ≠ Val.missing)
  let freqE : Except String Val :=
    if c.values.isEmpty then .ok .missing
    else if nn.isEmpty then .error "IndexError: index 0 is out of bounds"
    else .ok (.intV (maxMult nn))
  match freqE with
  | .error e => .error e
  | .ok f =>
    .ok [("count", .intV (nn.length : ℤ)),
         ("unique", .intV (nn.dedup.length : ℤ)),
         ("top", (modeVal nn).getD .missing),
         ("freq", f),
         ("missing", .intV (missingCount c))]

/-- One row of the transposed combined table: the MultiIndex group header,
the original column label and the statistic entries of that column. -/
structure SummaryRow where
  group : String
  col : Label
  stats : List (String × Val)
deriving DecidableEq

/-- Statistic row index of the numeric block, in construction order. -/
def numericStatNames : List String :=
  ["count", "mean", "std", "min", "25%", "50%", "75%", "max", "missing", "freq"]

/-- Statistic row index of the non-numeric block, in construction order. -/
def nonNumericStatNames : List String :=
  ["count", "unique", "top", "freq", "missing"]

/-- Union of the two statistic row indexes for the outer join performed by
pd.concat, in order of first appearance. -/
def unionStats (a b : List String) : List String :=
  a ++ b.filter fun s => decide (s ∉ a)

/-- Reindexing of one summary row over the joined statistic names, filling
the entries absent from its own block with the missing marker. -/
def alignRow (names : List String) (r : SummaryRow) : SummaryRow :=
  ⟨r.group, r.col,
   names.map fun nm => (nm, ((r.stats.find? fun p => p.1 == nm).map Prod.snd).getD .missing)⟩

/-- Column loop of the non-numeric block, left to right; the first raised
exception aborts the call. -/
def buildNonNumeric : List (Label × Col) → Except String (List SummaryRow)
  | [] => .ok []
  | p :: rest =>
    match nonNumericStats p.2 with
    | .error e => .error e
    | .ok st =>
      match buildNonNumeric rest with
      | .error e => .error e
      | .ok tail => .ok (⟨"Non-Numeric Data", p.1, st⟩ :: tail)

/-- Index.any over a label list: elementwise Python truthiness, false on an
empty index. -/
def anyTruthy (labs : List Label) : Bool := labs.any Label.truthy

/-- descriptive_analysis from the source. The names numeric_stats and
non_numeric_stats are assigned only under the Index.any guards; the final
pd.concat then reads both names, so a group that was skipped leaves its
name unassigned and the concat raises NameError (the numeric name is read
first in the list literal). The non-numeric block is built before the
concat is reached, so an IndexError raised there precedes any NameError.
The combined table is transposed into one SummaryRow per original column,
numeric columns first, with the statistic columns outer-joined by name. -/
def descriptive_analysis (d : Dataset) : Except String (List SummaryRow) :=
  let numCols := d.cols.filter fun p => p.2.numeric
  let nonCols := d.cols.filter fun p => !p.2.numeric
  let numBlock : Option (List SummaryRow) :=
    if anyTruthy (numCols.map Prod.fst) then
      some (numCols.map fun p => ⟨"Numeric Data", p.1, numericStats p.2⟩)
    else none
  let nonBlockE : Except String (Option (List SummaryRow)) :=
    if anyTruthy (nonCols.map Prod.fst) then
      match buildNonNumeric nonCols with
      | .error e => .error e
      | .ok rows => .ok (some rows)
    else .ok none
  match nonBlockE with
  | .error e => .error e
  | .ok nonBlock =>
    match numBlock, nonBlock with
    | some a, some b =>
      .ok ((a ++ b).map (alignRow (unionStats numericStatNames nonNumericStatNames)))
    | none, _ => .error "NameError: name numeric_stats is not defined"
    | some _, none => .error "NameError: name non_numeric_stats is not defined"

/-! Unfolding equations and inversion lemmas for the filter components. -/

lemma colReasons_str (t : ℚ) (n : ℕ) (s : String) (c : Col) :
    colReasons t n (.str s) c =
      .ok ((if (missingCount c : ℚ) > t * n then ["Excessive Missing Values"] else []) ++
        if isUnnamed s then ["Unnamed Column"] else []) := rfl

lemma colReasons_int (t : ℚ) (n : ℕ) (m : ℤ) (c : Col) :
    colReasons t n (.int m) c = .error "AttributeError: int object has no attribute lower" := rfl

lemma collectFlagged_cons (t : ℚ) (n : ℕ) (p : Label × Col) (rest : List (Label × Col)) :
    collectFlagged t n (p :: rest) =
      match colReasons t n p.1 p.2 with
      | .error e => .error e
      | .ok rs =>
        match collectFlagged t n rest with
        | .error e => .error e
        | .ok tail =>
          .ok (if rs.isEmpty then tail else (p.1, String.intercalate ", " rs) :: tail) := rfl

lemma collectFlagged_keys_sublist (t : ℚ) (n : ℕ) :
    ∀ (cols : List (Label × Col)) (l : List (Label × String)),
      collectFlagged t n cols = .ok l → List.Sublist (l.map Prod.fst) (cols.map Prod.fst) := by
  intro cols
  induction cols with
  | nil =>
    intro l h
    simp only [collectFlagged, Except.ok.injEq] at h
    subst h
    simp
  | cons p rest ih =>
    intro l h
    cases hr : colReasons t n p.1 p.2 with
    | error e => simp [collectFlagged_cons, hr] at h
    | ok rs =>
      cases hc : collectFlagged t n rest with
      | error e => simp [collectFlagged_cons, hr, hc] at h
      | ok tail =>
        simp only [collectFlagged_cons, hr, hc, Except.ok.injEq] at h
        by_cases he : rs.isEmpty = true
        · rw [if_pos he] at h
          subst h
          exact (ih tail hc).cons p.1
        · rw [if_neg he] at h
          subst h
          simp only [List.map_cons]
          exact (ih tail hc).cons₂ p.1

lemma collectFlagged_mem (t : ℚ) (n : ℕ) :
    ∀ (cols : List (Label × Col)) (l : List (Label × String)),
      collectFlagged t n cols = .ok l →
      ∀ lab r, (lab, r) ∈ l →
        ∃ c rs, (lab, c) ∈ cols ∧ colReasons t n lab c = .ok rs ∧ rs ≠ [] ∧
          r = String.intercalate ", " rs := by
  intro cols
  induction cols with
  | nil =>
    intro l h lab r hm
    simp only [collectFlagged, Except.ok.injEq] at h
    subst h
    exact absurd hm (List.not_mem_nil _)
  | cons p rest ih =>
    intro l h lab r hm
    cases hr : colReasons t n p.1 p.2 with
    | error e => simp [collectFlagged_cons, hr] at h
    | ok rs =>
      cases hc : collectFlagged t n rest with
      | error e => simp [collectFlagged_cons, hr, hc] at h
      | ok tail =>
        simp only [collectFlagged_cons, hr, hc, Except.ok.injEq] at h
        by_cases he : rs.isEmpty = true
        · rw [if_pos he] at h
          subst h
          obtain ⟨c, rs2, hmem, hok, hne, hr2⟩ := ih tail hc lab r hm
          exact ⟨c, rs2, List.mem_cons_of_mem _ hmem, hok, hne, hr2⟩
        · rw [if_neg he] at h
          subst h
          rcases List.mem_cons.mp hm with hhead | htail
          · have h1 : lab = p.1 := congrArg Prod.fst hhead
            have h2 : r = String.intercalate ", " rs := congrArg Prod.snd hhead
            subst h1
            refine ⟨p.2, rs, ?_, ?_, ?_, h2⟩
            · rw [Prod.mk.eta]
              exact List.mem_cons_self p rest
            · exact hr
            · intro hnil
              rw [hnil] at he
              exact he rfl
          · obtain ⟨c, rs2, hmem, hok, hne, hr2⟩ := ih tail hc lab r htail
            exact ⟨c, rs2, List.mem_cons_of_mem _ hmem, hok, hne, hr2⟩

lemma collectFlagged_pair_mem (t : ℚ) (n : ℕ) :
    ∀ (cols : List (Label × Col)) (l : List (Label × String)),
      collectFlagged t n cols = .ok l →
      ∀ lab c rs, (lab, c) ∈ cols → colReasons t n lab c = .ok rs → rs ≠ [] →
        (lab, String.intercalate ", " rs) ∈ l := by
  intro cols
  induction cols with
  | nil =>
    intro l h lab c rs hm
    exact absurd hm (List.not_mem_nil _)
  | cons p rest ih =>
    intro l h lab c rs hm hok hne
    cases hr : colReasons t n p.1 p.2 with
    | error e => simp [collectFlagged_cons, hr] at h
    | ok rs0 =>
      cases hc : collectFlagged t n rest with
      | error e => simp [collectFlagged_cons, hr, hc] at h
      | ok tail =>
        simp only [collectFlagged_cons, hr, hc, Except.ok.injEq] at h
        rcases List.mem_cons.mp hm with hhead | htail
        · have h1 : lab = p.1 := congrArg Prod.fst hhead
          have h2 : c = p.2 := congrArg Prod.snd hhead
          rw [h1, h2] at hok
          rw [hok] at hr
          have hrs : rs0 = rs := (Except.ok.inj hr).symm
          subst hrs
          have he : ¬ rs0.isEmpty = true := by
            intro hemp
            exact hne (List.isEmpty_iff.mp hemp)
          rw [if_neg he] at h
          subst h
          rw [h1]
          exact List.mem_cons_self _ _
        · have hmemtail := ih tail hc lab c rs htail hok hne
          by_cases he : rs0.isEmpty = true
          · rw [if_pos he] at h
            subst h
            exact hmemtail
          · rw [if_neg he] at h
            subst h
            exact List.mem_cons_of_mem _ hmemtail

lemma collectFlagged_colReasons_ok (t : ℚ) (n : ℕ) :
    ∀ (cols : List (Label × Col)) (l : List (Label × String)),
      collectFlagged t n cols = .ok l →
      ∀ lab c, (lab, c) ∈ cols → ∃ rs, colReasons t n lab c = .ok rs := by
  intro cols
  induction cols with
  | nil =>
    intro l h lab c hm
    exact absurd hm (List.not_mem_nil _)
  | cons p rest ih =>
    intro l h lab c hm
    cases hr : colReasons t n p.1 p.2 with
    | error e => simp [collectFlagged_cons, hr] at h
    | ok rs0 =>
      cases hc : collectFlagged t n rest with
      | error e => simp [collectFlagged_cons, hr, hc] at h
      | ok tail =>
        rcases List.mem_cons.mp hm with hhead | htail
        · have h1 : lab = p.1 := congrArg Prod.fst hhead
          have h2 : c = p.2 := congrArg Prod.snd hhead
          rw [h1, h2]
          exact ⟨rs0, hr⟩
        · exact ih tail hc lab c htail

lemma collectFlagged_nil (t : ℚ) (n : ℕ) :
    ∀ (cols : List (Label × Col)),
      (∀ p ∈ cols, colReasons t n p.1 p.2 = .ok []) → collectFlagged t n cols = .ok [] := by
  intro cols
  induction cols with
  | nil => intro _; rfl
  | cons p rest ih =>
    intro hall
    have hp := hall p (List.mem_cons_self p rest)
    have hrest := ih fun q hq => hall q (List.mem_cons_of_mem p hq)
    simp [collectFlagged_cons, hp, hrest]

lemma collectFlagged_int_error (t : ℚ) (n : ℕ) :
    ∀ (cols : List (Label × Col)) (m : ℤ) (c : Col), (Label.int m, c) ∈ cols →
      collectFlagged t n cols = .error "AttributeError: int object has no attribute lower" := by
  intro cols
  induction cols with
  | nil =>
    intro m c hm
    exact absurd hm (List.not_mem_nil _)
  | cons p rest ih =>
    intro m c hm
    rcases List.mem_cons.mp hm with hh | ht
    · have h1 : p.1 = Label.int m := (congrArg Prod.fst hh).symm
      rw [collectFlagged_cons, h1, colReasons_int]
    · cases hp : p.1 with
      | int k => rw [collectFlagged_cons, hp, colReasons_int]
      | str s => rw [collectFlagged_cons, hp, colReasons_str, ih m c ht]

lemma filter_cols_ok {d : Dataset} {t : ℚ} {flt : Dataset} {rep : Report}
    (h : filter_cols d t = .ok (flt, rep)) :
    collectFlagged t d.nrows d.cols = .ok rep.rows ∧
    rep.columnHeader = "Column" ∧ rep.reasonHeader = "Reason" ∧
    flt = ⟨d.nrows, d.cols.filter fun p => decide (p.1 ∉ rep.rows.map Prod.fst)⟩ := by
  unfold filter_cols at h
  cases hc : collectFlagged t d.nrows d.cols with
  | error e =>
    rw [hc] at h
    exact absurd h (by simp)
  | ok flagged =>
    rw [hc] at h
    simp only [Except.ok.injEq, Prod.mk.injEq] at h
    obtain ⟨h1, h2⟩ := h
    subst h2
    subst h1
    exact ⟨rfl, rfl, rfl, rfl⟩

/-- C3: filter_cols returns the filtered dataset holding exactly the
original columns minus the flagged ones, in original column order, with
the original values unchanged, together with a report whose two headers
are Column and Reason and whose rows are the removed columns in original
column order; when nothing is flagged the report is empty with the same
headers and the filtered dataset equals the input. -/
theorem C3_filter_cols_output (d : Dataset) (t : ℚ) (flt : Dataset) (rep : Report)
    (h : filter_cols d t = .ok (flt, rep)) :
    rep.columnHeader = "Column" ∧ rep.reasonHeader = "Reason" ∧
    flt.nrows = d.nrows ∧
    flt.cols = d.cols.filter (fun p => decide (p.1 ∉ rep.rows.map Prod.fst)) ∧
    List.Sublist flt.cols d.cols ∧
    List.Sublist (rep.rows.map Prod.fst) (d.cols.map Prod.fst) ∧
    (rep.rows = [] → flt = d) := by
  obtain ⟨hc, hch, hrh, hflt⟩ := filter_cols_ok h
  subst hflt
  refine ⟨hch, hrh, rfl, rfl, List.filter_sublist _,
    collectFlagged_keys_sublist t d.nrows _ _ hc, ?_⟩
  intro hnil
  rw [hnil]
  have hid : d.cols.filter (fun p => decide (p.1 ∉ ([] : List (Label × String)).map Prod.fst))
      = d.cols := List.filter_eq_self.mpr fun a _ => by simp
  rw [hid]

theorem C3_witness :
    (Report.mk "Column" "Reason" []).columnHeader = "Column" ∧
    (Report.mk "Column" "Reason" []).reasonHeader = "Reason" ∧
    (Dataset.mk 1 [(.str "A", ⟨true, [.intV 1]⟩)]).nrows =
      (Dataset.mk 1 [(.str "A", ⟨true, [.intV 1]⟩)]).nrows ∧
    (Dataset.mk 1 [(.str "A", ⟨true, [.intV 1]⟩)]).cols =
      (Dataset.mk 1 [(.str "A", ⟨true, [.intV 1]⟩)]).cols.filter
        (fun p => decide (p.1 ∉ (Report.mk "Column" "Reason" []).rows.map Prod.fst)) ∧
    List.Sublist (Dataset.mk 1 [(.str "A", ⟨true, [.intV 1]⟩)]).cols
      (Dataset.mk 1 [(.str "A", ⟨true, [.intV 1]⟩)]).cols ∧
    List.Sublist ((Report.mk "Column" "Reason" []).rows.map Prod.fst)
      ((Dataset.mk 1 [(.str "A", ⟨true, [.intV 1]⟩)]).cols.map Prod.fst) ∧
    ((Report.mk "Column" "Reason" []).rows = [] →
      Dataset.mk 1 [(.str "A", ⟨true, [.intV 1]⟩)] = Dataset.mk 1 [(.str "A", ⟨true, [.intV 1]⟩)]) :=
  C3_filter_cols_output ⟨1, [(.str "A", ⟨true, [.intV 1]⟩)]⟩ (9/10)
    ⟨1, [(.str "A", ⟨true, [.intV 1]⟩)]⟩ ⟨"Column", "Reason", []⟩ (by
      have hm : missingCount ⟨true, [.intV 1]⟩ = 0 := by decide
      have hA : isUnnamed "A" = false := by decide
      norm_num [filter_cols, collectFlagged, colReasons, hm, hA])

/-- C4: the missingness rule compares with strict inequality: a column
whose missing count equals t times the row count exactly is not flagged
for Excessive Missing Values, while a column whose missing count exceeds
that product is flagged. -/
theorem C4_missing_strict_boundary (t : ℚ) (n : ℕ) (s : String) (c : Col)
    (rs : List String) (h : colReasons t n (Label.str s) c = .ok rs) :
    ((missingCount c : ℚ) = t * n → "Excessive Missing Values" ∉ rs) ∧
    ((missingCount c : ℚ) > t * n → "Excessive Missing Values" ∈ rs) := by
  rw [colReasons_str] at h
  have hrs := Except.ok.inj h
  subst hrs
  constructor
  · intro heq
    have hm : ¬ ((missingCount c : ℚ) > t * n) := by
      rw [heq]
      exact lt_irrefl _
    rw [if_neg hm]
    by_cases hu : isUnnamed s = true
    · rw [if_pos hu]
      decide
    · rw [if_neg hu]
      decide
  · intro hgt
    rw [if_pos hgt]
    exact List.mem_append_left _ (List.mem_cons_self _ _)

theorem C4_witness :
    ((missingCount ⟨false, [.missing, .intV 1]⟩ : ℚ) = (1/2) * (2 : ℕ) ∧
      "Excessive Missing Values" ∉ ([] : List String)) ∧
    ((missingCount ⟨false, [.missing, .missing]⟩ : ℚ) > (1/2) * (2 : ℕ) ∧
      "Excessive Missing Values" ∈ ["Excessive Missing Values"]) := by
  have hm1 : missingCount ⟨false, [.missing, .intV 1]⟩ = 1 := by decide
  have hm2 : missingCount ⟨false, [.missing, .missing]⟩ = 2 := by decide
  have hA : isUnnamed "A" = false := by decide
  have h1 : colReasons (1/2) 2 (Label.str "A") ⟨false, [.missing, .intV 1]⟩ = .ok [] := by
    rw [colReasons_str]
    norm_num [hm1, hA]
  have h2 : colReasons (1/2) 2 (Label.str "A") ⟨false, [.missing, .missing]⟩ =
      .ok ["Excessive Missing Values"] := by
    rw [colReasons_str]
    norm_num [hm2, hA]
  refine ⟨⟨?_, (C4_missing_strict_boundary (1/2) 2 "A" _ [] h1).1 ?_⟩,
          ⟨?_, (C4_missing_strict_boundary (1/2) 2 "A" _ _ h2).2 ?_⟩⟩
  · rw [hm1]; norm_num
  · rw [hm1]; norm_num
  · rw [hm2]; norm_num
  · rw [hm2]; norm_num

/-- C5: every column whose name case-insensitively starts with unnamed is
flagged with the reason Unnamed Column regardless of missingness, only
such columns ever receive that reason, and when both rules apply the
single reason string lists Excessive Missing Values before Unnamed
Column, joined by a comma and a space. -/
theorem C5_unnamed_rule (d : Dataset) (t : ℚ) (flt : Dataset) (rep : Report)
    (h : filter_cols d t = .ok (flt, rep)) (s : String) (c : Col)
    (hmem : (Label.str s, c) ∈ d.cols) :
    (isUnnamed s = true →
      (Label.str s,
        if (missingCount c : ℚ) > t * d.nrows
        then "Excessive Missing Values, Unnamed Column"
        else "Unnamed Column") ∈ rep.rows) ∧
    (∀ lab r, (lab, r) ∈ rep.rows →
      (r = "Unnamed Column" ∨ r = "Excessive Missing Values, Unnamed Column") →
      ∃ s2, lab = Label.str s2 ∧ isUnnamed s2 = true) := by
  obtain ⟨hc, _, _, _⟩ := filter_cols_ok h
  constructor
  · intro hu
    by_cases hm : (missingCount c : ℚ) > t * d.nrows
    · rw [if_pos hm]
      have hok : colReasons t d.nrows (Label.str s) c =
          .ok ["Excessive Missing Values", "Unnamed Column"] := by
        rw [colReasons_str, if_pos hm, if_pos hu]
        rfl
      have hjoin : String.intercalate ", " ["Excessive Missing Values", "Unnamed Column"] =
          "Excessive Missing Values, Unnamed Column" := by decide
      have hmem2 := collectFlagged_pair_mem t d.nrows d.cols rep.rows hc (Label.str s) c
        ["Excessive Missing Values", "Unnamed Column"] hmem hok (by decide)
      rw [hjoin] at hmem2
      exact hmem2
    · rw [if_neg hm]
      have hok : colReasons t d.nrows (Label.str s) c = .ok ["Unnamed Column"] := by
        rw [colReasons_str, if_neg hm, if_pos hu]
        rfl
      have hjoin : String.intercalate ", " ["Unnamed Column"] = "Unnamed Column" := by decide
      have hmem2 := collectFlagged_pair_mem t d.nrows d.cols rep.rows hc (Label.str s) c
        ["Unnamed Column"] hmem hok (by decide)
      rw [hjoin] at hmem2
      exact hmem2
  · intro lab r hr hval
    obtain ⟨c2, rs, hmem2, hok, hne, hjoin⟩ :=
      collectFlagged_mem t d.nrows d.cols rep.rows hc lab r hr
    cases lab with
    | int k =>
      rw [colReasons_int] at hok
      exact absurd hok (by simp)
    | str s2 =>
      refine ⟨s2, rfl, ?_⟩
      by_cases hu : isUnnamed s2 = true
      · exact hu
      · exfalso
        rw [colReasons_str, if_neg hu] at hok
        have hrs := Except.ok.inj hok
        by_cases hm : (missingCount c2 : ℚ) > t * d.nrows
        · rw [if_pos hm] at hrs
          rw [← hrs] at hjoin
          subst hjoin
          rcases hval with hv | hv
          · exact absurd hv (by decide)
          · exact absurd hv (by decide)
        · rw [if_neg hm] at hrs
          exact hne hrs.symm

theorem C5_witness :
    (Label.str "Unnamed: 0", "Unnamed Column") ∈
      [(Label.str "Unnamed: 0", "Unnamed Column")] := by
  have h := (C5_unnamed_rule ⟨1, [(.str "Unnamed: 0", ⟨true, [.intV 5]⟩)]⟩ (9/10)
    ⟨1, []⟩ ⟨"Column", "Reason", [(Label.str "Unnamed: 0", "Unnamed Column")]⟩ (by
      have hm : missingCount ⟨true, [.intV 5]⟩ = 0 := by decide
      have hU : isUnnamed "Unnamed: 0" = true := by decide
      have hI : String.intercalate ", " ["Unnamed Column"] = "Unnamed Column" := by decide
      norm_num [filter_cols, collectFlagged, colReasons, hm, hU, hI])
    "Unnamed: 0" ⟨true, [.intV 5]⟩ (by decide)).1 (by decide)
  have hm : missingCount ⟨true, [.intV 5]⟩ = 0 := by decide
  rw [if_neg (by rw [hm]; norm_num)] at h
  exact h

/-- C8: filter_cols is idempotent: run with the same threshold on the
filtered dataset it returned, it removes nothing, returning that dataset
unchanged together with an empty report. -/
theorem C8_filter_idempotent (d : Dataset) (t : ℚ) (flt : Dataset) (rep : Report)
    (h : filter_cols d t = .ok (flt, rep)) :
    filter_cols flt t = .ok (flt, ⟨"Column", "Reason", []⟩) := by
  obtain ⟨hc, _, _, hflt⟩ := filter_cols_ok h
  subst hflt
  have hnil : collectFlagged t d.nrows
      (d.cols.filter fun p => decide (p.1 ∉ rep.rows.map Prod.fst)) = .ok [] := by
    apply collectFlagged_nil
    intro p hp
    rw [List.mem_filter] at hp
    obtain ⟨hpd, hdec⟩ := hp
    have hnotin : p.1 ∉ rep.rows.map Prod.fst := of_decide_eq_true hdec
    obtain ⟨rs, hrs⟩ := collectFlagged_colReasons_ok t d.nrows _ _ hc p.1 p.2
      (by rw [Prod.mk.eta]; exact hpd)
    rcases eq_or_ne rs [] with hre | hre
    · rw [hre] at hrs
      exact hrs
    · exfalso
      have hpair := collectFlagged_pair_mem t d.nrows d.cols rep.rows hc p.1 p.2 rs
        (by rw [Prod.mk.eta]; exact hpd) hrs hre
      exact hnotin (List.mem_map_of_mem Prod.fst hpair)
  show filter_cols ⟨d.nrows, d.cols.filter fun p => decide (p.1 ∉ rep.rows.map Prod.fst)⟩ t
    = _
  unfold filter_cols
  rw [show (Dataset.mk d.nrows
      (d.cols.filter fun p => decide (p.1 ∉ rep.rows.map Prod.fst))).nrows = d.nrows from rfl]
  rw [show (Dataset.mk d.nrows
      (d.cols.filter fun p => decide (p.1 ∉ rep.rows.map Prod.fst))).cols =
      d.cols.filter fun p => decide (p.1 ∉ rep.rows.map Prod.fst) from rfl]
  simp only [hnil]
  have hid : (d.cols.filter fun p => decide (p.1 ∉ rep.rows.map Prod.fst)).filter
      (fun p => decide (p.1 ∉ ([] : List (Label × String)).map Prod.fst)) =
      d.cols.filter fun p => decide (p.1 ∉ rep.rows.map Prod.fst) :=
    List.filter_eq_self.mpr fun a _ => by simp
  rw [hid]

theorem C8_witness :
    filter_cols ⟨1, [(.str "B", ⟨true, [.intV 2]⟩)]⟩ (9/10) =
      .ok (⟨1, [(.str "B", ⟨true, [.intV 2]⟩)]⟩, ⟨"Column", "Reason", []⟩) := by
  have hm1 : missingCount ⟨true, [.intV 1]⟩ = 0 := by decide
  have hm2 : missingCount ⟨true, [.intV 2]⟩ = 0 := by decide
  have hU : isUnnamed "Unnamed: 0" = true := by decide
  have hB : isUnnamed "B" = false := by decide
  have hI : String.intercalate ", " ["Unnamed Column"] = "Unnamed Column" := by decide
  have hne : "B" ≠ "Unnamed: 0" := by decide
  exact C8_filter_idempotent
    ⟨1, [(.str "Unnamed: 0", ⟨true, [.intV 1]⟩), (.str "B", ⟨true, [.intV 2]⟩)]⟩ (9/10)
    ⟨1, [(.str "B", ⟨true, [.intV 2]⟩)]⟩
    ⟨"Column", "Reason", [(Label.str "Unnamed: 0", "Unnamed Column")]⟩ (by
      norm_num [filter_cols, collectFlagged, colReasons, hm1, hm2, hU, hB, hI, hne])

/-- C9: a dataset holding any column whose label is not a string makes
filter_cols raise from the .lower call of the naming heuristic, whatever
the data and the threshold are; string labels are an undocumented
precondition of the filter. -/
theorem C9_nonstring_label_raises (d : Dataset) (t : ℚ) (m : ℤ) (c : Col)
    (hmem : (Label.int m, c) ∈ d.cols) :
    filter_cols d t = .error "AttributeError: int object has no attribute lower" := by
  unfold filter_cols
  rw [collectFlagged_int_error t d.nrows d.cols m c hmem]

theorem C9_witness :
    filter_cols ⟨1, [(Label.int 0, ⟨true, [.intV 1]⟩)]⟩ (9/10) =
      .error "AttributeError: int object has no attribute lower" :=
  C9_nonstring_label_raises ⟨1, [(Label.int 0, ⟨true, [.intV 1]⟩)]⟩ (9/10) 0
    ⟨true, [.intV 1]⟩ (by decide)

/-- C10: with a well-formed dataset and the threshold at one, the top of
the range, no column is ever flagged for Excessive Missing Values (even an
all-missing column only reaches the threshold count, failing the strict
comparison), so every report row carries exactly the reason Unnamed Column
and a column is removed only when its name starts with unnamed. -/
theorem C10_threshold_one_only_unnamed (d : Dataset) (flt : Dataset) (rep : Report)
    (hwf : d.WF) (h : filter_cols d 1 = .ok (flt, rep)) :
    ∀ lab r, (lab, r) ∈ rep.rows →
      r = "Unnamed Column" ∧ ∀ s, lab = Label.str s → isUnnamed s = true := by
  obtain ⟨hc, _, _, _⟩ := filter_cols_ok h
  intro lab r hm
  obtain ⟨c, rs, hmemd, hok, hne, hr⟩ := collectFlagged_mem 1 d.nrows _ _ hc lab r hm
  cases lab with
  | int k =>
    rw [colReasons_int] at hok
    exact absurd hok (by simp)
  | str s =>
    rw [colReasons_str] at hok
    have hrs := Except.ok.inj hok
    have hlen : c.values.length = d.nrows := hwf.2 (Label.str s, c) hmemd
    have hcount : missingCount c ≤ d.nrows := by
      rw [← hlen]
      exact List.count_le_length _ _
    have hnot : ¬ ((missingCount c : ℚ) > 1 * (d.nrows : ℚ)) := by
      rw [one_mul]
      exact not_lt.mpr (by exact_mod_cast hcount)
    rw [if_neg hnot] at hrs
    by_cases hu : isUnnamed s = true
    · rw [if_pos hu] at hrs
      rw [List.nil_append] at hrs
      rw [← hrs] at hr
      constructor
      · rw [hr]
        decide
      · intro s2 hs2
        have : s = s2 := Label.str.inj hs2
        rw [← this]
        exact hu
    · rw [if_neg hu] at hrs
      exact absurd hrs.symm hne

theorem C10_witness :
    "Unnamed Column" = "Unnamed Column" ∧
    (∀ s, Label.str "Unnamed: 1" = Label.str s → isUnnamed s = true) := by
  have hmA : missingCount ⟨false, [.missing, .missing]⟩ = 2 := by decide
  have hA : isUnnamed "A" = false := by decide
  have hU : isUnnamed "Unnamed: 1" = true := by decide
  have hI : String.intercalate ", " ["Unnamed Column"] = "Unnamed Column" := by decide
  exact C10_threshold_one_only_unnamed
    ⟨2, [(.str "A", ⟨false, [.missing, .missing]⟩), (.str "Unnamed: 1", ⟨false, [.missing, .missing]⟩)]⟩
    ⟨2, [(.str "A", ⟨false, [.missing, .missing]⟩)]⟩
    ⟨"Column", "Reason", [(Label.str "Unnamed: 1", "Unnamed Column")]⟩
    (by constructor
        · decide
        · intro p hp
          fin_cases hp <;> rfl)
    (by norm_num [filter_cols, collectFlagged, colReasons, hmA, hA, hU, hI]
        decide)
    (Label.str "Unnamed: 1") "Unnamed Column" (by decide)

/-- C6: format_number returns the missing marker unchanged, rounds a float
to two decimal places while keeping it a float (a whole rounded value such
as 3.0 stays the float 3, never an integer), returns integers and strings
unchanged, and is total. -/
theorem C6_format_number_cases :
    format_number Val.missing = Val.missing ∧
    (∀ q : ℚ, format_number (Val.flt q) = Val.flt (round2 q)) ∧
    format_number (Val.flt 3) = Val.flt 3 ∧
    (∀ n : ℤ, format_number (Val.intV n) = Val.intV n) ∧
    (∀ s : String, format_number (Val.strV s) = Val.strV s) := by
  refine ⟨rfl, fun q => rfl, ?_, fun n => rfl, fun s => rfl⟩
  show Val.flt (round2 3) = Val.flt 3
  have : round2 3 = 3 := by
    unfold round2
    norm_num
  rw [this]

/-- C1: the claim says that with one type group empty describe returns the
other group table, and with zero columns an empty table, never failing; on
the code the guarded assignments leave the name of the skipped block
unassigned and the concat raises NameError, as these evaluations of the
three degenerate shapes show. -/
theorem C1_empty_group_name_error :
    descriptive_analysis ⟨1, [(.str "Category", ⟨false, [.strV "x"]⟩)]⟩ =
      .error "NameError: name numeric_stats is not defined" ∧
    descriptive_analysis ⟨0, []⟩ =
      .error "NameError: name numeric_stats is not defined" ∧
    descriptive_analysis ⟨1, [(.str "A", ⟨true, [.intV 1]⟩)]⟩ =
      .error "NameError: name non_numeric_stats is not defined" :=
  ⟨rfl, rfl, rfl⟩

/-- C2: the claim says a non-numeric column that has rows but only missing
values gets the missing marker as its freq entry without an exception; on
the code the overwrite of the freq row guards only on x.empty, and
value_counts drops the missing values, so iloc[0] hits an empty table and
raises IndexError, as this evaluation shows. -/
theorem C2_all_missing_nonnumeric_index_error :
    descriptive_analysis ⟨1, [(.str "B", ⟨false, [.missing]⟩)]⟩ =
      .error "IndexError: index 0 is out of bounds" := rfl

/-! Lemmas for the summary-shape invariant. -/

lemma keys_inj {α β : Type} : ∀ {l : List (α × β)}, (l.map Prod.fst).Nodup →
    ∀ {a : α} {b1 b2 : β}, (a, b1) ∈ l → (a, b2) ∈ l → b1 = b2 := by
  intro l
  induction l with
  | nil =>
    intro _ a b1 b2 h1 h2
    exact absurd h1 (List.not_mem_nil _)
  | cons p rest ih =>
    intro hnd a b1 b2 h1 h2
    simp only [List.map_cons, List.nodup_cons] at hnd
    rcases List.mem_cons.mp h1 with e1 | m1 <;> rcases List.mem_cons.mp h2 with e2 | m2
    · simpa using congrArg Prod.snd (e1.trans e2.symm)
    · exfalso
      have hkey : a ∈ rest.map Prod.fst := List.mem_map_of_mem Prod.fst m2
      have he : a = p.1 := congrArg Prod.fst e1
      exact hnd.1 (he ▸ hkey)
    · exfalso
      have hkey : a ∈ rest.map Prod.fst := List.mem_map_of_mem Prod.fst m1
      have he : a = p.1 := congrArg Prod.fst e2
      exact hnd.1 (he ▸ hkey)
    · exact ih hnd.2 m1 m2

lemma buildNonNumeric_cons (p : Label × Col) (rest : List (Label × Col)) :
    buildNonNumeric (p :: rest) =
      match nonNumericStats p.2 with
      | .error e => .error e
      | .ok st =>
        match buildNonNumeric rest with
        | .error e => .error e
        | .ok tail => .ok (⟨"Non-Numeric Data", p.1, st⟩ :: tail) := rfl

lemma buildNonNumeric_shape :
    ∀ (cols : List (Label × Col)) (rows : List SummaryRow),
      buildNonNumeric cols = .ok rows →
      rows.map (fun r => (r.group, r.col)) = cols.map fun p => ("Non-Numeric Data", p.1) := by
  intro cols
  induction cols with
  | nil =>
    intro rows h
    simp only [buildNonNumeric, Except.ok.injEq] at h
    subst h
    rfl
  | cons p rest ih =>
    intro rows h
    cases hs : nonNumericStats p.2 with
    | error e => simp [buildNonNumeric_cons, hs] at h
    | ok st =>
      cases hb : buildNonNumeric rest with
      | error e => simp [buildNonNumeric_cons, hs, hb] at h
      | ok tail =>
        simp only [buildNonNumeric_cons, hs, hb, Except.ok.injEq] at h
        subst h
        simp only [List.map_cons]
        rw [ih tail hb]

lemma descriptive_analysis_shape (d : Dataset) (s : List SummaryRow)
    (h : descriptive_analysis d = .ok s) :
    s.map (fun r => (r.group, r.col)) =
      ((d.cols.filter fun p => p.2.numeric).map fun p => ("Numeric Data", p.1)) ++
      ((d.cols.filter fun p => !p.2.numeric).map fun p => ("Non-Numeric Data", p.1)) := by
  by_cases h0 : anyTruthy ((d.cols.filter fun p => p.2.numeric).map Prod.fst) = true
  · by_cases h1 : anyTruthy ((d.cols.filter fun p => !p.2.numeric).map Prod.fst) = true
    · cases hb : buildNonNumeric (d.cols.filter fun p => !p.2.numeric) with
      | error e => simp [descriptive_analysis, h0, h1, hb] at h
      | ok rows =>
        simp only [descriptive_analysis, h0, h1, hb, if_true, Except.ok.injEq] at h
        rw [← h]
        simp only [List.map_append, List.map_map]
        rw [← buildNonNumeric_shape _ rows hb]
        rfl
    · simp [descriptive_analysis, h0, h1] at h
  · by_cases h1 : anyTruthy ((d.cols.filter fun p => !p.2.numeric).map Prod.fst) = true <;>
      cases hb : buildNonNumeric (d.cols.filter fun p => !p.2.numeric) <;>
      simp [descriptive_analysis, h0, h1, hb] at h

lemma countP_key_filter_split (lab : Label) (l : List (Label × Col)) :
    ((l.filter fun p => p.2.numeric).countP fun p => decide (p.1 = lab)) +
      ((l.filter fun p => !p.2.numeric).countP fun p => decide (p.1 = lab)) =
      l.countP fun p => decide (p.1 = lab) := by
  induction l with
  | nil => rfl
  | cons a l ih =>
    simp only [List.filter_cons]
    by_cases ha : a.2.numeric = true <;> by_cases hl : a.1 = lab <;>
      simp [List.countP_cons, ha, hl, ← ih] <;> omega

lemma countP_key_nodup (lab : Label) (c : Col) :
    ∀ (l : List (Label × Col)), (l.map Prod.fst).Nodup → (lab, c) ∈ l →
      l.countP (fun p => decide (p.1 = lab)) = 1 := by
  intro l
  induction l with
  | nil =>
    intro _ hmem
    exact absurd hmem (List.not_mem_nil _)
  | cons a rest ih =>
    intro hnd hmem
    simp only [List.map_cons, List.nodup_cons] at hnd
    rw [List.countP_cons]
    rcases List.mem_cons.mp hmem with he | hm
    · have ha : a.1 = lab := congrArg Prod.fst he.symm
      have hz : rest.countP (fun p => decide (p.1 = lab)) = 0 := by
        rw [List.countP_eq_zero]
        intro q hq hdec
        have hq1 : q.1 = lab := of_decide_eq_true hdec
        apply hnd.1
        rw [ha, ← hq1]
        exact List.mem_map_of_mem Prod.fst hq
      simp [hz, ha]
    · have h1 : lab ∈ rest.map Prod.fst := List.mem_map_of_mem Prod.fst hm
      have ha : ¬ (a.1 = lab) := fun e => hnd.1 (e ▸ h1)
      simp [ih hnd.2 hm, ha]

/-- C7: for a well-formed dataset on which describe succeeds, every input
column appears exactly once as a row of the returned summary, under the
group Numeric Data when the column is numeric and Non-Numeric Data
otherwise, and every summary row comes from an input column. -/
theorem C7_describe_partition (d : Dataset) (s : List SummaryRow) (lab : Label) (c : Col)
    (hwf : d.WF) (h : descriptive_analysis d = .ok s) (hmem : (lab, c) ∈ d.cols) :
    s.countP (fun r => decide (r.col = lab)) = 1 ∧
    (∀ r ∈ s, r.col = lab →
      r.group = if c.numeric then "Numeric Data" else "Non-Numeric Data") ∧
    (∀ r ∈ s, ∃ c2, (r.col, c2) ∈ d.cols) := by
  have hshape := descriptive_analysis_shape d s h
  refine ⟨?_, ?_, ?_⟩
  · have e1 : (s.map fun r => (r.group, r.col)).countP (fun gc => decide (gc.2 = lab)) =
        s.countP (fun r => decide (r.col = lab)) := List.countP_map _ _ _
    rw [hshape, List.countP_append, List.countP_map, List.countP_map] at e1
    have e2 : ((d.cols.filter fun p => p.2.numeric).countP fun p => decide (p.1 = lab)) +
        ((d.cols.filter fun p => !p.2.numeric).countP fun p => decide (p.1 = lab)) =
        s.countP (fun r => decide (r.col = lab)) := e1
    rw [countP_key_filter_split, countP_key_nodup lab c d.cols hwf.1 hmem] at e2
    exact e2.symm
  · intro r hr hcol
    have hpair : (r.group, r.col) ∈ s.map (fun r => (r.group, r.col)) :=
      List.mem_map_of_mem _ hr
    rw [hshape] at hpair
    rcases List.mem_append.mp hpair with hnum | hnon
    · obtain ⟨p, hp, he⟩ := List.mem_map.mp hnum
      have hg : "Numeric Data" = r.group := congrArg Prod.fst he
      have hl : p.1 = r.col := congrArg Prod.snd he
      rw [List.mem_filter] at hp
      have hpmem : (p.1, p.2) ∈ d.cols := by
        rw [Prod.mk.eta]
        exact hp.1
      have hp1 : p.1 = lab := hl.trans hcol
      have hpmem2 : (lab, p.2) ∈ d.cols := hp1 ▸ hpmem
      have hceq : p.2 = c := keys_inj hwf.1 hpmem2 hmem
      rw [← hg, if_pos (hceq ▸ hp.2)]
    · obtain ⟨p, hp, he⟩ := List.mem_map.mp hnon
      have hg : "Non-Numeric Data" = r.group := congrArg Prod.fst he
      have hl : p.1 = r.col := congrArg Prod.snd he
      rw [List.mem_filter] at hp
      have hpmem : (p.1, p.2) ∈ d.cols := by
        rw [Prod.mk.eta]
        exact hp.1
      have hp1 : p.1 = lab := hl.trans hcol
      have hpmem2 : (lab, p.2) ∈ d.cols := hp1 ▸ hpmem
      have hceq : p.2 = c := keys_inj hwf.1 hpmem2 hmem
      have hfalse : c.numeric = false := by
        have := hp.2
        rw [hceq] at this
        simpa using this
      rw [← hg, if_neg (by simp [hfalse])]
  · intro r hr
    have hpair : (r.group, r.col) ∈ s.map (fun r => (r.group, r.col)) :=
      List.mem_map_of_mem _ hr
    rw [hshape] at hpair
    rcases List.mem_append.mp hpair with hside | hside <;>
    · obtain ⟨p, hp, he⟩ := List.mem_map.mp hside
      have hl : p.1 = r.col := congrArg Prod.snd he
      rw [List.mem_filter] at hp
      refine ⟨p.2, ?_⟩
      rw [← hl, Prod.mk.eta]
      exact hp.1

theorem C7_witness :
    ([⟨"Numeric Data", .str "A",
        [("count", .flt 0), ("mean", .missing), ("std", .missing), ("min", .missing),
         ("25%", .missing), ("50%", .missing), ("75%", .missing), ("max", .missing),
         ("missing", .intV 1), ("freq", .missing), ("unique", .missing), ("top", .missing)]⟩,
      ⟨"Non-Numeric Data", .str "B",
        [("count", .intV 1), ("mean", .missing), ("std", .missing), ("min", .missing),
         ("25%", .missing), ("50%", .missing), ("75%", .missing), ("max", .missing),
         ("missing", .intV 0), ("freq", .intV 1), ("unique", .intV 1), ("top", .strV "x")]⟩]
      : List SummaryRow).countP (fun r => decide (r.col = Label.str "A")) = 1 ∧
    (∀ r ∈ ([⟨"Numeric Data", .str "A",
        [("count", .flt 0), ("mean", .missing), ("std", .missing), ("min", .missing),
         ("25%", .missing), ("50%", .missing), ("75%", .missing), ("max", .missing),
         ("missing", .intV 1), ("freq", .missing), ("unique", .missing), ("top", .missing)]⟩,
      ⟨"Non-Numeric Data", .str "B",
        [("count", .intV 1), ("mean", .missing), ("std", .missing), ("min", .missing),
         ("25%", .missing), ("50%", .missing), ("75%", .missing), ("max", .missing),
         ("missing", .intV 0), ("freq", .intV 1), ("unique", .intV 1), ("top", .strV "x")]⟩]
      : List SummaryRow), r.col = Label.str "A" →
      r.group = if (Col.mk true [.missing]).numeric then "Numeric Data" else "Non-Numeric Data") ∧
    (∀ r ∈ ([⟨"Numeric Data", .str "A",
        [("count", .flt 0), ("mean", .missing), ("std", .missing), ("min", .missing),
         ("25%", .missing), ("50%", .missing), ("75%", .missing), ("max", .missing),
         ("missing", .intV 1), ("freq", .missing), ("unique", .missing), ("top", .missing)]⟩,
      ⟨"Non-Numeric Data", .str "B",
        [("count", .intV 1), ("mean", .missing), ("std", .missing), ("min", .missing),
         ("25%", .missing), ("50%", .missing), ("75%", .missing), ("max", .missing),
         ("missing", .intV 0), ("freq", .intV 1), ("unique", .intV 1), ("top", .strV "x")]⟩]
      : List SummaryRow), ∃ c2,
      (r.col, c2) ∈ (Dataset.mk 1 [(.str "A", ⟨true, [.missing]⟩), (.str "B", ⟨false, [.strV "x"]⟩)]).cols) :=
  C7_describe_partition
    ⟨1, [(.str "A", ⟨true, [.missing]⟩), (.str "B", ⟨false, [.strV "x"]⟩)]⟩
    _ (Label.str "A") ⟨true, [.missing]⟩ (by decide) rfl (by decide)

end GF
